import Mathlib

/-!
Verification of the path-tracking deserialization decorator
(`serde_path_to_error`): a shallow embedding of the data model in
`src/path.rs` and the decorator layer in `src/lib.rs`, together with
theorems about the recorded error paths.

Conventions of the embedding:
* Rust `usize` indices become `Nat`; Rust `String`/`&str`/`&'static str`
  become `String`.
* Fallible calls returning `Result<T, E>` become `Except E T`.
* The single piece of mutable state, the `Track` accumulator (and, inside
  `MapAccess`/`CaptureKey`, the captured-key slot), is threaded explicitly:
  a Rust method taking `&mut Track` becomes a function from `Track` to a
  pair of result and updated `Track`.
* The decorators are generic over the wrapped backend object; the backend
  calls they forward to are abstracted as function arguments, so theorems
  quantify over every behaviour of the wrapped object.
-/

namespace PathToError

/-- Single segment of a path (`Segment`, src/path.rs lines 19-25). -/
inductive Segment where
  | seq (index : Nat)
  | map (key : String)
  | enum (variant : String)
  | unknown
deriving Repr, DecidableEq

/-- Path to the error value in the input (`Path`, src/path.rs lines 13-16):
an ordered list of segments, root first. -/
structure Path where
  segments : List Segment
deriving Repr, DecidableEq

/-- `Path::empty` (src/path.rs lines 94-98). -/
def Path.empty : Path := ⟨[]⟩

/-- The borrowed ancestry chain (`Chain`, src/lib.rs lines 214-241).
`Path::from_chain` in src/path.rs line 113 pattern-matches a
`Chain::Struct { parent, key }` node (its key a `&'static str`), so the
enum must carry that variant for src/path.rs to compile, although the
declaration at src/lib.rs lines 214-241 omits it; it is included here,
in the position in which src/path.rs handles it. -/
inductive Chain where
  | root
  | seq (parent : Chain) (index : Nat)
  | map (parent : Chain) (key : String)
  | struct (parent : Chain) (key : String)
  | enum (parent : Chain) (variant : String)
  | some (parent : Chain)
  | newtypeStruct (parent : Chain)
  | newtypeVariant (parent : Chain)
  | nonStringKey (parent : Chain)
deriving Repr, DecidableEq

/-- The loop of `Path::from_chain` (src/path.rs lines 102-136): walk parent
links from the leaf, pushing one segment per contributing node, so the
accumulated list is in leaf-to-root order. -/
def Path.fromChainLoop : Chain → List Segment
  | .root => []
  | .seq parent index => Segment.seq index :: Path.fromChainLoop parent
  | .map parent key => Segment.map key :: Path.fromChainLoop parent
  | .struct parent key => Segment.map key :: Path.fromChainLoop parent
  | .enum parent variant => Segment.enum variant :: Path.fromChainLoop parent
  | .some parent => Path.fromChainLoop parent
  | .newtypeStruct parent => Path.fromChainLoop parent
  | .newtypeVariant parent => Path.fromChainLoop parent
  | .nonStringKey parent => Segment.unknown :: Path.fromChainLoop parent

/-- `Path::from_chain` (src/path.rs lines 100-139): collect segments
leaf-to-root, then reverse (line 137), so the result is root-to-leaf. -/
def Path.fromChain (chain : Chain) : Path :=
  ⟨(Path.fromChainLoop chain).reverse⟩

/-- `Display for Segment` (src/path.rs lines 146-156): a sequence index
renders bracketed, map keys and enum variants render as their bare text,
an unknown segment renders as a question mark. -/
def Segment.render : Segment → String
  | .seq index => ("[") ++ toString index ++ ("]")
  | .map key => key
  | .enum variant => variant
  | .unknown => ("?")

/-- The loop of `Display for Path` (src/path.rs lines 80-87): the running
`separator` starts empty and becomes a period after the first segment;
before every segment except a `Seq` segment the separator is written. -/
def Path.renderLoop : List Segment → String → String → String
  | [], acc, _ => acc
  | seg :: rest, acc, separator =>
      Path.renderLoop rest
        (acc ++ (match seg with | .seq _ => ("") | _ => separator) ++ seg.render)
        (".")

/-- `Display for Path` (src/path.rs lines 74-91): an empty path renders as
a lone period, otherwise the segment loop runs with an empty accumulator
and an initially empty separator. -/
def Path.render (p : Path) : String :=
  if p.segments.isEmpty then (".") else Path.renderLoop p.segments ("") ("")

/-- Rendering rule as worded by the specification (for comparison with
`Path.render`, which is translated from the source): no segments render as
the no-location marker; otherwise the first segment renders bare and each
later segment is preceded by the period delimiter, except a sequence-index
segment, which is attached directly to its predecessor. -/
def Path.renderSpecTail : List Segment → String
  | [] => ("")
  | seg :: rest =>
      (match seg with
       | .seq _ => seg.render
       | _ => (".") ++ seg.render) ++ Path.renderSpecTail rest

/-- Spec-worded whole-path rendering; see `Path.renderSpecTail`. -/
def Path.renderSpec : List Segment → String
  | [] => (".")
  | first :: rest => first.render ++ Path.renderSpecTail rest

/-- `Track` (src/lib.rs lines 107-109): the accumulator holding the path of
the first error, `None` while no error has been recorded. -/
structure Track where
  path : Option Path
deriving Repr, DecidableEq

/-- `Track::new` (src/lib.rs lines 113-115). -/
def Track.new : Track := ⟨none⟩

/-- `Track::path` (src/lib.rs lines 119-121): the stored path, or the empty
path when none was ever stored. (Named `getPath` here because `path` is
taken by the field.) -/
def Track.getPath (t : Track) : Path :=
  t.path.getD Path.empty

/-- `Track::trigger_impl` (src/lib.rs lines 129-133): store the path
materialized from `chain`, but only if nothing is stored yet. -/
def Track.triggerImpl (t : Track) (chain : Chain) : Track :=
  match t.path with
  | none => ⟨Option.some (Path.fromChain chain)⟩
  | Option.some _ => t

/-- `Track::trigger` (src/lib.rs lines 123-127): run `trigger_impl` and
hand the error back unchanged. -/
def Track.trigger {E : Type} (t : Track) (chain : Chain) (err : E) : E × Track :=
  (err, t.triggerImpl chain)

/-- The `.map_err(|err| track.trigger(&chain, err))` combinator applied at
every propagation point of src/lib.rs: on success nothing happens, on
failure the track is triggered with `chain` and the error re-raised. -/
def mapErrTrigger {E α : Type} (chain : Chain) :
    Except E α × Track → Except E α × Track
  | (.ok v, tr) => (.ok v, tr)
  | (.error e, tr) =>
      let p := tr.trigger chain e
      (.error p.1, p.2)

/-- Original deserializer error together with the path at which it occurred
(`Error`, src/lib.rs lines 68-71). -/
structure Error (E : Type) where
  path : Path
  original : E

/-- `Display for Error` (src/lib.rs lines 90-94): the rendered path, a
colon and a space, then the original error's own display output
(`dispE` stands for the `Display` impl of `E`). -/
def Error.display {E : Type} (dispE : E → String) (err : Error E) : String :=
  Path.render err.path ++ (": ") ++ dispE err.original

/-- The entry point `deserialize` (src/lib.rs lines 137-150). The call
`T::deserialize(Deserializer::new(deserializer, &mut track))` is
abstracted as `tdeser`, a computation threading the track. -/
def deserializeEntry {E α : Type} (tdeser : Track → Except E α × Track) :
    Except (Error E) α :=
  match tdeser Track.new with
  | (.ok t, _) => .ok t
  | (.error e, tr) => .error ⟨tr.getPath, e⟩

/-- `TrackedSeed::deserialize` (src/lib.rs lines 1548-1568): run the inner
seed against a `Deserializer` adapter built from the stored chain, and on
failure trigger the track with that chain before re-raising. The inner
call `self.seed.deserialize(Deserializer { de, chain, track })` is
abstracted as `seedRun`, a computation depending on the chain the adapter
carries and threading the track. -/
def TrackedSeed.run {E β : Type} (seedRun : Chain → Track → Except E β × Track)
    (chain : Chain) (tr : Track) : Except E β × Track :=
  mapErrTrigger chain (seedRun chain tr)

/-- `SeqAccess::next_element_seed` (src/lib.rs lines 1596-1610): build a
`Chain::Seq` node over the current chain at the current index, increment
the index unconditionally, wrap the caller's seed in a `TrackedSeed`
carrying that node, forward to the wrapped backend, and on failure trigger
with the un-extended parent chain. The backend call
`self.delegate.next_element_seed(tracked_seed)` is abstracted as
`delegate`, a function of the tracked seed's behaviour; the returned `Nat`
is the updated `self.index`. -/
def SeqAccess.nextElementSeed {E β : Type}
    (delegate : (Track → Except E β × Track) → Track → Except E (Option β) × Track)
    (seedRun : Chain → Track → Except E β × Track)
    (chain : Chain) (index : Nat) (tr : Track) :
    (Except E (Option β) × Track) × Nat :=
  (mapErrTrigger chain (delegate (TrackedSeed.run seedRun (Chain.seq chain index)) tr),
   index + 1)

/-- `SeqAccess::size_hint` (src/lib.rs lines 1612-1614): the wrapped
backend's size hint, unchanged. -/
def SeqAccess.sizeHint (delegateHint : Option Nat) : Option Nat :=
  delegateHint

/-- `MapAccess::next_key_seed` (src/lib.rs lines 1643-1659): forward to the
wrapped backend with the key seed wrapped in a `CaptureKey` writing into
`self.key`; on failure take the slot and trigger with a `Chain::Map` node
if a key text was captured, else a `Chain::NonStringKey` node. The backend
call (including the `CaptureKey` slot writes it performs) is abstracted as
`delegate`, a function from the slot's initial contents to the result and
the slot's final contents; that call cannot touch the track. -/
def MapAccess.nextKeySeed {E β : Type}
    (delegate : Option String → Except E (Option β) × Option String)
    (chain : Chain) (key : Option String) (tr : Track) :
    Except E (Option β) × Option String × Track :=
  match delegate key with
  | (.ok v, key') => (.ok v, key', tr)
  | (.error e, key') =>
      let errChain := match key' with
        | Option.some k => Chain.map chain k
        | none => Chain.nonStringKey chain
      let p := tr.trigger errChain e
      (.error p.1, none, p.2)

/-- `MapAccess::next_value_seed` (src/lib.rs lines 1661-1674): take the
captured key out of the slot, build the same chain variant as the key path
(`Chain::Map` when a key was captured, else `Chain::NonStringKey`), wrap
the caller's value seed in a `TrackedSeed` carrying it, forward, and on
failure trigger with the un-extended parent chain. -/
def MapAccess.nextValueSeed {E β : Type}
    (delegate : (Track → Except E β × Track) → Track → Except E β × Track)
    (seedRun : Chain → Track → Except E β × Track)
    (chain : Chain) (key : Option String) (tr : Track) :
    Except E β × Option String × Track :=
  let valueChain := match key with
    | Option.some k => Chain.map chain k
    | none => Chain.nonStringKey chain
  match delegate (TrackedSeed.run seedRun valueChain) tr with
  | (.ok v, tr2) => (.ok v, none, tr2)
  | (.error e, tr2) =>
      let p := tr2.trigger chain e
      (.error p.1, none, p.2)

/-- `MapAccess::size_hint` (src/lib.rs lines 1676-1678). -/
def MapAccess.sizeHint (delegateHint : Option Nat) : Option Nat :=
  delegateHint

/-- The callback surface of a serde `Visitor`, as the delegate of
`CaptureKey` sees it (the methods implemented at src/lib.rs lines
1345-1532). Value representations: booleans `Bool`, signed integers `Int`,
unsigned integers `Nat`, floats an opaque type `F` (only forwarded, never
inspected), characters `Char`, the three string shapes `String`, byte
buffers `List Nat`; the payloads of the composite callbacks (the nested
deserializer of `visit_some`/`visit_newtype_struct`, the seq/map/enum
access objects) are opaque types `D`, `S`, `M`, `N`. -/
structure Visitor (α E F D S M N : Type) where
  visitBool : Bool → Except E α
  visitI8 : Int → Except E α
  visitI16 : Int → Except E α
  visitI32 : Int → Except E α
  visitI64 : Int → Except E α
  visitU8 : Nat → Except E α
  visitU16 : Nat → Except E α
  visitU32 : Nat → Except E α
  visitU64 : Nat → Except E α
  visitF32 : F → Except E α
  visitF64 : F → Except E α
  visitChar : Char → Except E α
  visitStr : String → Except E α
  visitBorrowedStr : String → Except E α
  visitString : String → Except E α
  visitUnit : Except E α
  visitNone : Except E α
  visitSome : D → Except E α
  visitNewtypeStruct : D → Except E α
  visitSeq : S → Except E α
  visitMap : M → Except E α
  visitEnum : N → Except E α
  visitBytes : List Nat → Except E α
  visitBorrowedBytes : List Nat → Except E α
  visitByteBuf : List Nat → Except E α

/-- The same callback surface with the `CaptureKey` output slot threaded
through: each callback receives the slot's contents and returns them
(possibly updated) next to the result. -/
structure SlotVisitor (α E F D S M N : Type) where
  visitBool : Bool → Option String → Except E α × Option String
  visitI8 : Int → Option String → Except E α × Option String
  visitI16 : Int → Option String → Except E α × Option String
  visitI32 : Int → Option String → Except E α × Option String
  visitI64 : Int → Option String → Except E α × Option String
  visitU8 : Nat → Option String → Except E α × Option String
  visitU16 : Nat → Option String → Except E α × Option String
  visitU32 : Nat → Option String → Except E α × Option String
  visitU64 : Nat → Option String → Except E α × Option String
  visitF32 : F → Option String → Except E α × Option String
  visitF64 : F → Option String → Except E α × Option String
  visitChar : Char → Option String → Except E α × Option String
  visitStr : String → Option String → Except E α × Option String
  visitBorrowedStr : String → Option String → Except E α × Option String
  visitString : String → Option String → Except E α × Option String
  visitUnit : Option String → Except E α × Option String
  visitNone : Option String → Except E α × Option String
  visitSome : D → Option String → Except E α × Option String
  visitNewtypeStruct : D → Option String → Except E α × Option String
  visitSeq : S → Option String → Except E α × Option String
  visitMap : M → Option String → Except E α × Option String
  visitEnum : N → Option String → Except E α × Option String
  visitBytes : List Nat → Option String → Except E α × Option String
  visitBorrowedBytes : List Nat → Option String → Except E α × Option String
  visitByteBuf : List Nat → Option String → Except E α × Option String

/-- `impl Visitor for CaptureKey` (src/lib.rs lines 1345-1532): every
callback forwards to the delegate; `visit_str` (line 1439),
`visit_borrowed_str` (line 1447) and `visit_string` (line 1455) first
write a copy of the decoded text into the slot. -/
def CaptureKey.visitor {α E F D S M N : Type} (d : Visitor α E F D S M N) :
    SlotVisitor α E F D S M N where
  visitBool := fun v slot => (d.visitBool v, slot)
  visitI8 := fun v slot => (d.visitI8 v, slot)
  visitI16 := fun v slot => (d.visitI16 v, slot)
  visitI32 := fun v slot => (d.visitI32 v, slot)
  visitI64 := fun v slot => (d.visitI64 v, slot)
  visitU8 := fun v slot => (d.visitU8 v, slot)
  visitU16 := fun v slot => (d.visitU16 v, slot)
  visitU32 := fun v slot => (d.visitU32 v, slot)
  visitU64 := fun v slot => (d.visitU64 v, slot)
  visitF32 := fun v slot => (d.visitF32 v, slot)
  visitF64 := fun v slot => (d.visitF64 v, slot)
  visitChar := fun v slot => (d.visitChar v, slot)
  visitStr := fun v _slot => (d.visitStr v, Option.some v)
  visitBorrowedStr := fun v _slot => (d.visitBorrowedStr v, Option.some v)
  visitString := fun v _slot => (d.visitString v, Option.some v)
  visitUnit := fun slot => (d.visitUnit, slot)
  visitNone := fun slot => (d.visitNone, slot)
  visitSome := fun de slot => (d.visitSome de, slot)
  visitNewtypeStruct := fun de slot => (d.visitNewtypeStruct de, slot)
  visitSeq := fun a slot => (d.visitSeq a, slot)
  visitMap := fun a slot => (d.visitMap a, slot)
  visitEnum := fun a slot => (d.visitEnum a, slot)
  visitBytes := fun v slot => (d.visitBytes v, slot)
  visitBorrowedBytes := fun v slot => (d.visitBorrowedBytes v, slot)
  visitByteBuf := fun v slot => (d.visitByteBuf v, slot)

/-- The decode-kind forwarding of `impl Deserializer for CaptureKey`
(src/lib.rs lines 1063-1341): all twenty-six methods have the identical
body `self.delegate.deserialize_X(CaptureKey::new(visitor, self.key))`,
here modelled once with the delegate's method abstracted as
`delegateMethod` (a function of the slot-threading visitor it is handed,
since the `CaptureKey`-wrapped visitor may write the slot while it runs). -/
def CaptureKey.deserializeKind {α E F D S M N : Type}
    (delegateMethod : SlotVisitor α E F D S M N → Option String → Except E α × Option String)
    (visitor : Visitor α E F D S M N) (slot : Option String) :
    Except E α × Option String :=
  delegateMethod (CaptureKey.visitor visitor) slot

/-!
Concrete model instantiation. The crate is a decorator over an arbitrary
serde backend and an arbitrary `Deserialize` target, which are external
collaborators; to state whole-decode properties they are modelled here as
a generic self-describing value-tree backend (`Value`, in the style of
`serde_json::Value`) driving schema-directed targets (`Schema`, in the
style of derived `Deserialize` impls, with unknown struct fields
rejected). `decodeRaw` is the composition of backend and target without
the decorator; `decodeTracked` is the same composition with every
decorator layer of src/lib.rs interposed, built from the decorator
definitions above: the `Deserializer` adapter's
`.map_err(|err| track.trigger(&chain, err))` at every decode-kind method,
the `Wrap` visitor's identical map at every composite callback with the
chain extension of `visit_some` (src/lib.rs line 858) and
`visit_newtype_struct` (line 873), and `SeqAccess`/`MapAccess`/
`TrackedSeed`/`CaptureKey` for sequence elements and map entries. -/

/-- Input values of the model backend. -/
inductive Value where
  | vbool (b : Bool)
  | vint (n : Int)
  | vstr (s : String)
  | vnull
  | vsome (v : Value)
  | vseq (elems : List Value)
  | vmap (entries : List (Value × Value))
deriving Repr

/-- Target shapes of the model `Deserialize` impls. -/
inductive Schema where
  | bool
  | int
  | str
  | option (inner : Schema)
  | newtype (inner : Schema)
  | seq (elem : Schema)
  | struct (fields : List (String × Schema))
deriving Repr

/-- Values produced by the model targets. -/
inductive Data where
  | dbool (b : Bool)
  | dint (n : Int)
  | dstr (s : String)
  | dnone
  | dsome (d : Data)
  | dnewtype (d : Data)
  | dseq (elems : List Data)
  | dstruct (fields : List (String × Data))
deriving Repr

/-- Error message of the model backend and targets for a value of the
wrong shape. -/
def invalidType : String := ("invalid type")

/-- Error message of the model struct targets for a key naming no field. -/
def unknownField : String := ("unknown field")

/-- Model of the backend decoding one map key against the
`CaptureKey`-wrapped field-identifier seed of a struct target
(the `delegate` argument of `MapAccess.nextKeySeed`): a string key is
written into the slot by `CaptureKey`'s `visit_str` and then matched
against the target's field list by the identifier visitor, which yields
the matched (name, schema) pair or rejects an unknown name; a non-string
key is rejected by the identifier visitor without any slot write. -/
def fieldKeyDelegate (fields : List (String × Schema)) (kv : Value)
    (slot : Option String) :
    Except String (Option (String × Schema)) × Option String :=
  match kv with
  | .vstr s =>
      match fields.find? (fun p => p.1 == s) with
      | Option.some pr => (.ok (Option.some pr), Option.some s)
      | none => (.error unknownField, Option.some s)
  | _ => (.error invalidType, slot)

mutual

/-- The undecorated composition: model backend driving a model target
directly, with no chain, track, or decorator in between. -/
def decodeRaw : Schema → Value → Except String Data
  | .bool, v =>
      match v with
      | .vbool b => .ok (Data.dbool b)
      | _ => .error invalidType
  | .int, v =>
      match v with
      | .vint n => .ok (Data.dint n)
      | _ => .error invalidType
  | .str, v =>
      match v with
      | .vstr s => .ok (Data.dstr s)
      | _ => .error invalidType
  | .option inner, v =>
      match v with
      | .vnull => .ok Data.dnone
      | .vsome w => (decodeRaw inner w).map Data.dsome
      | _ => .error invalidType
  | .newtype inner, v => (decodeRaw inner v).map Data.dnewtype
  | .seq elemS, v =>
      match v with
      | .vseq l => (decodeRawList elemS l).map Data.dseq
      | _ => .error invalidType
  | .struct fields, v =>
      match v with
      | .vmap entries => (decodeRawStruct fields entries).map Data.dstruct
      | _ => .error invalidType
termination_by s v => (sizeOf v, sizeOf s)

/-- Undecorated sequence loop: decode each element in order, aborting on
the first failure. -/
def decodeRawList (elemS : Schema) : List Value → Except String (List Data)
  | [] => .ok []
  | e :: rest =>
      match decodeRaw elemS e with
      | .error err => .error err
      | .ok d => (decodeRawList elemS rest).map (fun ds => d :: ds)
termination_by l => (sizeOf l, sizeOf elemS)

/-- Undecorated struct loop: decode each key against the field list, then
the value against the matched field's schema. -/
def decodeRawStruct (fields : List (String × Schema)) :
    List (Value × Value) → Except String (List (String × Data))
  | [] => .ok []
  | (kv, vv) :: rest =>
      match kv with
      | .vstr s =>
          match fields.find? (fun p => p.1 == s) with
          | Option.some pr =>
              match decodeRaw pr.2 vv with
              | .error err => .error err
              | .ok d => (decodeRawStruct fields rest).map (fun ds => (pr.1, d) :: ds)
          | none => .error unknownField
      | _ => .error invalidType
termination_by entries => (sizeOf entries, sizeOf fields)

end

mutual

/-- The decorated composition: the same backend and targets, decoding
through every layer of src/lib.rs. Each schema case mirrors the layers the
real call tree passes through: the outermost `mapErrTrigger chain` is the
`Deserializer` adapter's decode-kind method (src/lib.rs lines 250-614),
the inner `mapErrTrigger chain` is the `Wrap` visitor callback the model
backend invokes (lines 652-944); `visit_some` and `visit_newtype_struct`
recurse through a fresh adapter whose chain is extended with
`Chain::Some` (line 858) / `Chain::NewtypeStruct` (line 873); sequences
and maps go through the `SeqAccess` / `MapAccess` decorators. -/
def decodeTracked : Schema → Value → Chain → Track → Except String Data × Track
  | .bool, v, chain, tr =>
      mapErrTrigger chain
        (match v with
         | .vbool b => mapErrTrigger chain (.ok (Data.dbool b), tr)
         | _ => mapErrTrigger chain (.error invalidType, tr))
  | .int, v, chain, tr =>
      mapErrTrigger chain
        (match v with
         | .vint n => mapErrTrigger chain (.ok (Data.dint n), tr)
         | _ => mapErrTrigger chain (.error invalidType, tr))
  | .str, v, chain, tr =>
      mapErrTrigger chain
        (match v with
         | .vstr s => mapErrTrigger chain (.ok (Data.dstr s), tr)
         | _ => mapErrTrigger chain (.error invalidType, tr))
  | .option inner, v, chain, tr =>
      mapErrTrigger chain
        (match v with
         | .vnull => mapErrTrigger chain (.ok Data.dnone, tr)
         | .vsome w =>
             mapErrTrigger chain
               (match decodeTracked inner w (Chain.some chain) tr with
                | (.ok d, tr2) => (.ok (Data.dsome d), tr2)
                | (.error e, tr2) => (.error e, tr2))
         | _ => mapErrTrigger chain (.error invalidType, tr))
  | .newtype inner, v, chain, tr =>
      mapErrTrigger chain
        (mapErrTrigger chain
          (match decodeTracked inner v (Chain.newtypeStruct chain) tr with
           | (.ok d, tr2) => (.ok (Data.dnewtype d), tr2)
           | (.error e, tr2) => (.error e, tr2)))
  | .seq elemS, v, chain, tr =>
      mapErrTrigger chain
        (match v with
         | .vseq l =>
             mapErrTrigger chain
               (match seqLoopTracked elemS l chain 0 tr with
                | (.ok ds, tr2) => (.ok (Data.dseq ds), tr2)
                | (.error e, tr2) => (.error e, tr2))
         | _ => mapErrTrigger chain (.error invalidType, tr))
  | .struct fields, v, chain, tr =>
      mapErrTrigger chain
        (match v with
         | .vmap entries =>
             mapErrTrigger chain
               (match structLoopTracked fields entries chain none tr with
                | (.ok ds, _, tr2) => (.ok (Data.dstruct ds), tr2)
                | (.error e, _, tr2) => (.error e, tr2))
         | _ => mapErrTrigger chain (.error invalidType, tr))
termination_by s v _chain _tr => (sizeOf v, sizeOf s)

/-- Decorated sequence loop: the target's `visit_seq` body calling
`SeqAccess.nextElementSeed` once per element, the model backend's
access object running the tracked seed against each element in turn. -/
def seqLoopTracked (elemS : Schema) :
    List Value → Chain → Nat → Track → Except String (List Data) × Track
  | [], _, _, tr => (.ok [], tr)
  | e :: rest, chain, index, tr =>
      match SeqAccess.nextElementSeed
          (fun seedFn t =>
            match seedFn t with
            | (.ok d, t2) => (.ok (Option.some d), t2)
            | (.error err, t2) => (.error err, t2))
          (fun c t => decodeTracked elemS e c t)
          chain index tr with
      | ((.error err, tr2), _) => (.error err, tr2)
      | ((.ok none, tr2), _) => (.ok [], tr2)
      | ((.ok (Option.some d), tr2), index2) =>
          match seqLoopTracked elemS rest chain index2 tr2 with
          | (.ok ds, tr3) => (.ok (d :: ds), tr3)
          | (.error err, tr3) => (.error err, tr3)
termination_by l _chain _index _tr => (sizeOf l, sizeOf elemS)

/-- Decorated struct loop: the target's `visit_map` body alternating
`MapAccess.nextKeySeed` (through the `CaptureKey`-wrapped identifier seed
of `fieldKeyDelegate`) and `MapAccess.nextValueSeed` (through a
`TrackedSeed` for the matched field's schema), threading the captured-key
slot. -/
def structLoopTracked (fields : List (String × Schema)) :
    List (Value × Value) → Chain → Option String → Track →
      Except String (List (String × Data)) × Option String × Track
  | [], _, slot, tr => (.ok [], slot, tr)
  | (kv, vv) :: rest, chain, slot, tr =>
      match MapAccess.nextKeySeed (fieldKeyDelegate fields kv) chain slot tr with
      | (.error e, slot2, tr2) => (.error e, slot2, tr2)
      | (.ok none, slot2, tr2) => (.ok [], slot2, tr2)
      | (.ok (Option.some pr), slot2, tr2) =>
          match MapAccess.nextValueSeed
              (fun seedFn t => seedFn t)
              (fun c t => decodeTracked pr.2 vv c t)
              chain slot2 tr2 with
          | (.error e, slot3, tr3) => (.error e, slot3, tr3)
          | (.ok d, slot3, tr3) =>
              match structLoopTracked fields rest chain slot3 tr3 with
              | (.ok ds, slot4, tr4) => (.ok ((pr.1, d) :: ds), slot4, tr4)
              | (.error e, slot4, tr4) => (.error e, slot4, tr4)
termination_by entries _chain _slot _tr => (sizeOf entries, sizeOf fields)

end

/-- The model instantiation of the entry point: `deserialize` with the
backend on `v` and the target for `s`. -/
def deserializeModel (s : Schema) (v : Value) : Except (Error String) Data :=
  deserializeEntry (fun tr => decodeTracked s v Chain.root tr)

/-! Helper lemmas. -/

lemma mapErrTrigger_ok {E α : Type} (chain : Chain) (v : α) (tr : Track) :
    mapErrTrigger (E := E) chain (.ok v, tr) = (.ok v, tr) := rfl

/-- The source loop of `Display for Path`, once its separator has become a
period, renders exactly the specification's tail rule appended to the
accumulator. -/
lemma renderLoop_append (segs : List Segment) (acc : String) :
    Path.renderLoop segs acc (".") = acc ++ Path.renderSpecTail segs := by
  induction segs generalizing acc with
  | nil => simp [Path.renderLoop, Path.renderSpecTail]
  | cons seg rest ih =>
      cases seg <;>
        simp [Path.renderLoop, Path.renderSpecTail, ih, String.append_assoc]

/-- On elementwise-transparent element decodes, the decorated sequence
loop returns exactly the undecorated result and leaves the track alone. -/
lemma seqLoop_agrees (elemS : Schema) (l : List Value)
    (IH : ∀ e, e ∈ l → ∀ chain tr d, decodeRaw elemS e = .ok d →
        decodeTracked elemS e chain tr = (.ok d, tr)) :
    ∀ chain index tr ds, decodeRawList elemS l = .ok ds →
      seqLoopTracked elemS l chain index tr = (.ok ds, tr) := by
  induction l with
  | nil =>
      intro chain index tr ds h
      simp [decodeRawList] at h
      simp [seqLoopTracked, h]
  | cons e rest ihl =>
      intro chain index tr ds h
      rw [decodeRawList] at h
      cases hre : decodeRaw elemS e with
      | error err => rw [hre] at h; exact absurd h (by simp)
      | ok d =>
          rw [hre] at h
          cases hrl : decodeRawList elemS rest with
          | error err => rw [hrl] at h; exact absurd h (by simp [Except.map])
          | ok ds0 =>
              rw [hrl] at h
              simp only [Except.map, Except.ok.injEq] at h
              subst h
              have htr := IH e (by simp) (Chain.seq chain index) tr d hre
              rw [seqLoopTracked]
              simp only [SeqAccess.nextElementSeed, TrackedSeed.run, htr,
                mapErrTrigger_ok]
              rw [ihl (fun e2 h2 => IH e2 (List.mem_cons_of_mem _ h2))
                    chain (index + 1) tr ds0 hrl]

/-- On fieldwise-transparent value decodes, the decorated struct loop
returns exactly the undecorated result and leaves the track alone. -/
lemma structLoop_agrees (fields : List (String × Schema)) (entries : List (Value × Value))
    (IH : ∀ pr vv, pr ∈ fields → (∃ kv, (kv, vv) ∈ entries) →
        ∀ chain tr d, decodeRaw pr.2 vv = .ok d →
          decodeTracked pr.2 vv chain tr = (.ok d, tr)) :
    ∀ chain slot tr ds, decodeRawStruct fields entries = .ok ds →
      ∃ slot2, structLoopTracked fields entries chain slot tr = (.ok ds, slot2, tr) := by
  induction entries with
  | nil =>
      intro chain slot tr ds h
      simp [decodeRawStruct] at h
      exact ⟨slot, by simp [structLoopTracked, h]⟩
  | cons ent rest ihl =>
      obtain ⟨kv, vv⟩ := ent
      intro chain slot tr ds h
      cases kv with
      | vstr s =>
          simp only [decodeRawStruct] at h
          cases hf : fields.find? (fun p => p.1 == s) with
          | none => simp [hf] at h
          | some pr =>
              simp only [hf] at h
              cases hrv : decodeRaw pr.2 vv with
              | error err => simp [hrv] at h
              | ok d =>
                  simp only [hrv] at h
                  cases hrl : decodeRawStruct fields rest with
                  | error err => simp [hrl, Except.map] at h
                  | ok ds0 =>
                      simp only [hrl] at h
                      simp only [Except.map, Except.ok.injEq] at h
                      subst h
                      have hmem : pr ∈ fields := List.mem_of_find?_eq_some hf
                      have htr := IH pr vv hmem ⟨Value.vstr s, by simp⟩
                        (Chain.map chain s) tr d hrv
                      obtain ⟨slot2, hrest⟩ := ihl
                        (fun pr2 vv2 hm2 hex2 => IH pr2 vv2 hm2
                          (hex2.elim (fun kv2 hk => ⟨kv2, List.mem_cons_of_mem _ hk⟩)))
                        chain none tr ds0 hrl
                      refine ⟨slot2, ?_⟩
                      rw [structLoopTracked]
                      simp only [MapAccess.nextKeySeed, fieldKeyDelegate, hf,
                        MapAccess.nextValueSeed, TrackedSeed.run, htr,
                        mapErrTrigger_ok, hrest]
      | vbool b => simp [decodeRawStruct] at h
      | vint n => simp [decodeRawStruct] at h
      | vnull => simp [decodeRawStruct] at h
      | vsome w => simp [decodeRawStruct] at h
      | vseq l2 => simp [decodeRawStruct] at h
      | vmap m2 => simp [decodeRawStruct] at h

/-- Any decode that succeeds without the decorator succeeds identically
through it, under every ancestry chain and from every track state, and
the track passes through untouched. Strong induction on the combined size
of schema and value. -/
lemma decode_agrees : ∀ (n : Nat) (s : Schema) (v : Value),
    sizeOf s + sizeOf v ≤ n →
    ∀ chain tr d, decodeRaw s v = .ok d → decodeTracked s v chain tr = (.ok d, tr) := by
  intro n
  induction n with
  | zero =>
      intro s v hle
      have hs : 0 < sizeOf s := by cases s <;> simp_arith
      omega
  | succ n ih =>
      intro s v hle chain tr d h
      cases s with
      | bool =>
          cases v <;> simp [decodeRaw] at h
          simp [decodeTracked, mapErrTrigger_ok, h]
      | int =>
          cases v <;> simp [decodeRaw] at h
          simp [decodeTracked, mapErrTrigger_ok, h]
      | str =>
          cases v <;> simp [decodeRaw] at h
          simp [decodeTracked, mapErrTrigger_ok, h]
      | option inner =>
          cases v with
          | vnull =>
              simp [decodeRaw] at h
              simp [decodeTracked, mapErrTrigger_ok, h]
          | vsome w =>
              simp only [decodeRaw] at h
              cases hrw : decodeRaw inner w with
              | error err => simp [hrw, Except.map] at h
              | ok d0 =>
                  simp [hrw, Except.map] at h
                  have hsz : sizeOf inner + sizeOf w ≤ n := by
                    have h1 : sizeOf (Schema.option inner) = 1 + sizeOf inner := by
                      simp_arith
                    have h2 : sizeOf (Value.vsome w) = 1 + sizeOf w := by simp_arith
                    omega
                  have htr := ih inner w hsz (Chain.some chain) tr d0 hrw
                  simp [decodeTracked, htr, mapErrTrigger_ok, h]
          | vbool b => simp [decodeRaw] at h
          | vint m => simp [decodeRaw] at h
          | vstr s2 => simp [decodeRaw] at h
          | vseq l2 => simp [decodeRaw] at h
          | vmap m2 => simp [decodeRaw] at h
      | newtype inner =>
          simp only [decodeRaw] at h
          cases hrv : decodeRaw inner v with
          | error err => simp [hrv, Except.map] at h
          | ok d0 =>
              simp [hrv, Except.map] at h
              have hsz : sizeOf inner + sizeOf v ≤ n := by
                have h1 : sizeOf (Schema.newtype inner) = 1 + sizeOf inner := by
                  simp_arith
                omega
              have htr := ih inner v hsz (Chain.newtypeStruct chain) tr d0 hrv
              simp [decodeTracked, htr, mapErrTrigger_ok, h]
      | seq elemS =>
          cases v with
          | vseq l =>
              simp only [decodeRaw] at h
              cases hrl : decodeRawList elemS l with
              | error err => simp [hrl, Except.map] at h
              | ok ds0 =>
                  simp [hrl, Except.map] at h
                  have hloop := seqLoop_agrees elemS l
                    (fun e hmem chain2 tr2 d2 hd2 => by
                      have hszl : sizeOf e < sizeOf l := List.sizeOf_lt_of_mem hmem
                      have hsz : sizeOf elemS + sizeOf e ≤ n := by
                        have h1 : sizeOf (Schema.seq elemS) = 1 + sizeOf elemS := by
                          simp_arith
                        have h2 : sizeOf (Value.vseq l) = 1 + sizeOf l := by simp_arith
                        omega
                      exact ih elemS e hsz chain2 tr2 d2 hd2)
                    chain 0 tr ds0 hrl
                  simp [decodeTracked, hloop, mapErrTrigger_ok, h]
          | vbool b => simp [decodeRaw] at h
          | vint m => simp [decodeRaw] at h
          | vstr s2 => simp [decodeRaw] at h
          | vnull => simp [decodeRaw] at h
          | vsome w => simp [decodeRaw] at h
          | vmap m2 => simp [decodeRaw] at h
      | struct fields =>
          cases v with
          | vmap entries =>
              simp only [decodeRaw] at h
              cases hrl : decodeRawStruct fields entries with
              | error err => simp [hrl, Except.map] at h
              | ok ds0 =>
                  simp [hrl, Except.map] at h
                  have hloop := structLoop_agrees fields entries
                    (fun pr vv hmem hex chain2 tr2 d2 hd2 => by
                      obtain ⟨kv, hkv⟩ := hex
                      have hszf : sizeOf pr < sizeOf fields := List.sizeOf_lt_of_mem hmem
                      have hszv : sizeOf (kv, vv) < sizeOf entries :=
                        List.sizeOf_lt_of_mem hkv
                      have hprsz : sizeOf pr.2 < sizeOf pr := by
                        obtain ⟨a, b⟩ := pr; simp_arith
                      have hvsz : sizeOf vv < sizeOf (kv, vv) := by simp_arith
                      have hsz : sizeOf pr.2 + sizeOf vv ≤ n := by
                        have h1 : sizeOf (Schema.struct fields) = 1 + sizeOf fields := by
                          simp_arith
                        have h2 : sizeOf (Value.vmap entries) = 1 + sizeOf entries := by
                          simp_arith
                        omega
                      exact ih pr.2 vv hsz chain2 tr2 d2 hd2)
                    chain none tr ds0 hrl
                  obtain ⟨slot2, hloop2⟩ := hloop
                  simp [decodeTracked, hloop2, mapErrTrigger_ok, h]
          | vbool b => simp [decodeRaw] at h
          | vint m => simp [decodeRaw] at h
          | vstr s2 => simp [decodeRaw] at h
          | vnull => simp [decodeRaw] at h
          | vsome w => simp [decodeRaw] at h
          | vseq l2 => simp [decodeRaw] at h

/-! Claim theorems. -/

/-- C1: the Track accumulator is set at most once per top-level decode.
The first `trigger` call on an empty Track stores the Path materialized
from the given Chain, every subsequent `trigger` on the same Track leaves
the stored Path unchanged (it is a no-op on the state), and `trigger`
always returns the error argument unchanged. -/
theorem track_trigger_set_at_most_once {E : Type} (tr : Track) (chain : Chain) (err : E) :
    (tr.path = none → ((tr.trigger chain err).2).path
        = Option.some (Path.fromChain chain)) ∧
    (∀ p, tr.path = Option.some p → (tr.trigger chain err).2 = tr) ∧
    (tr.trigger chain err).1 = err := by
  obtain ⟨tp⟩ := tr
  refine ⟨?_, ?_, rfl⟩ <;> cases tp <;>
    simp [Track.trigger, Track.triggerImpl]

/-- Witness for C1 at concrete inputs: a first trigger on the fresh Track
stores the chain's path, a trigger on an already-set Track changes
nothing. -/
theorem track_trigger_witness :
    ((Track.new.trigger (Chain.map Chain.root ("k")) (0 : Nat)).2).path
        = Option.some (Path.fromChain (Chain.map Chain.root ("k"))) ∧
    ((Track.mk (Option.some Path.empty)).trigger Chain.root (1 : Nat)).2
        = Track.mk (Option.some Path.empty) :=
  ⟨(track_trigger_set_at_most_once Track.new (Chain.map Chain.root ("k")) 0).1 rfl,
   (track_trigger_set_at_most_once (Track.mk (Option.some Path.empty)) Chain.root 1).2.1
      Path.empty rfl⟩

/-- C2: for every backend input and every target that decode successfully,
decoding through the path-tracking decorator stack produces a value
identical to decoding directly with the undecorated backend — under every
ancestry chain and from every track state, which the decode passes through
untouched — and in particular from the entry point the Track remains
empty. -/
theorem tracked_decode_transparent_on_success (s : Schema) (v : Value) (d : Data)
    (h : decodeRaw s v = .ok d) :
    (∀ chain tr, decodeTracked s v chain tr = (.ok d, tr)) ∧
    deserializeModel s v = .ok d ∧
    (decodeTracked s v Chain.root Track.new).2 = Track.new := by
  have key := decode_agrees (sizeOf s + sizeOf v) s v le_rfl
  refine ⟨fun chain tr => key chain tr d h, ?_, by rw [key Chain.root Track.new d h]⟩
  simp [deserializeModel, deserializeEntry, key Chain.root Track.new d h]

/-- Witness for C2: a two-element integer sequence decodes to the same
value with and without the decorator, and the Track stays empty. -/
theorem tracked_decode_transparent_witness :
    decodeRaw (Schema.seq Schema.int) (Value.vseq [Value.vint 5, Value.vint 7])
        = .ok (Data.dseq [Data.dint 5, Data.dint 7]) ∧
    deserializeModel (Schema.seq Schema.int) (Value.vseq [Value.vint 5, Value.vint 7])
        = .ok (Data.dseq [Data.dint 5, Data.dint 7]) ∧
    (decodeTracked (Schema.seq Schema.int) (Value.vseq [Value.vint 5, Value.vint 7])
        Chain.root Track.new).2 = Track.new := by
  have hraw : decodeRaw (Schema.seq Schema.int) (Value.vseq [Value.vint 5, Value.vint 7])
      = .ok (Data.dseq [Data.dint 5, Data.dint 7]) := by
    simp [decodeRaw, decodeRawList, Except.map]
  have hmain := tracked_decode_transparent_on_success _ _ _ hraw
  exact ⟨hraw, hmain.2.1, hmain.2.2⟩

/-- C3: the top-level deserialize entry point returns Ok exactly when the
wrapped decode succeeds; when it fails, the returned Error pairs the
original error value, unchanged, with the Path stored in the Track, and
`Track::path` on a never-triggered Track returns the empty Path. -/
theorem deserialize_entry_contract {E α : Type} (tdeser : Track → Except E α × Track) :
    (∀ v tr2, tdeser Track.new = (.ok v, tr2) → deserializeEntry tdeser = .ok v) ∧
    (∀ e tr2, tdeser Track.new = (.error e, tr2) →
        deserializeEntry tdeser = .error (Error.mk tr2.getPath e)) ∧
    Track.getPath Track.new = Path.empty ∧
    (∀ p, Track.getPath (Track.mk (Option.some p)) = p) := by
  refine ⟨?_, ?_, rfl, fun p => rfl⟩ <;> intro x tr2 h <;> simp [deserializeEntry, h]

/-- Witness for C3: a decode that fails without ever triggering yields the
original error paired with the empty path. -/
theorem deserialize_entry_witness :
    deserializeEntry (fun tr => ((Except.error ("boom") : Except String Nat), tr))
      = Except.error (Error.mk Path.empty ("boom")) := by
  have h := (deserialize_entry_contract
      (fun tr => ((Except.error ("boom") : Except String Nat), tr))).2.1
      ("boom") Track.new rfl
  exact h

/-- C4: `Path::from_chain` walks parent links from the leaf to the Root
and reverses, so the result is in root-to-leaf order: each node's segments
are its parent's segments with at most one segment appended. `Seq` nodes
append a sequence-index segment, `Map` and `Struct` nodes a map-key
segment, `Enum` nodes a variant segment, `NonStringKey` nodes an Unknown
segment, and `Some`, `NewtypeStruct` and `NewtypeVariant` nodes append
nothing at all. -/
theorem from_chain_root_to_leaf :
    Path.fromChain Chain.root = Path.empty ∧
    (∀ p i, (Path.fromChain (Chain.seq p i)).segments
        = (Path.fromChain p).segments ++ [Segment.seq i]) ∧
    (∀ p k, (Path.fromChain (Chain.map p k)).segments
        = (Path.fromChain p).segments ++ [Segment.map k]) ∧
    (∀ p k, (Path.fromChain (Chain.struct p k)).segments
        = (Path.fromChain p).segments ++ [Segment.map k]) ∧
    (∀ p v, (Path.fromChain (Chain.enum p v)).segments
        = (Path.fromChain p).segments ++ [Segment.enum v]) ∧
    (∀ p, (Path.fromChain (Chain.nonStringKey p)).segments
        = (Path.fromChain p).segments ++ [Segment.unknown]) ∧
    (∀ p, Path.fromChain (Chain.some p) = Path.fromChain p) ∧
    (∀ p, Path.fromChain (Chain.newtypeStruct p) = Path.fromChain p) ∧
    (∀ p, Path.fromChain (Chain.newtypeVariant p) = Path.fromChain p) := by
  refine ⟨rfl, ?_, ?_, ?_, ?_, ?_, ?_, ?_, ?_⟩ <;> intros <;>
    simp [Path.fromChain, Path.fromChainLoop]

/-- C5: a Path with no segments renders as the single no-location marker;
otherwise the segments render in order separated by the period delimiter,
except that a sequence-index segment renders as a bracketed suffix
attached directly to its predecessor with no preceding delimiter —
i.e. the source rendering coincides with the specification's rule. -/
theorem path_render_spec (p : Path) :
    Path.render p = Path.renderSpec p.segments ∧ Path.render Path.empty = (".") := by
  refine ⟨?_, rfl⟩
  obtain ⟨segs⟩ := p
  cases segs with
  | nil => rfl
  | cons first rest =>
      cases first <;>
        simp [Path.render, Path.renderSpec, Path.renderLoop, renderLoop_append]

/-- C6: `SeqAccess::next_element_seed` increments its zero-based running
index unconditionally, on success and on failure alike; it hands the
wrapped backend the caller's seed wrapped in a `TrackedSeed` whose chain
is a `Seq` node holding the pre-increment index over the current parent
chain, and maps failures through a trigger with the un-extended parent
chain; a failing element decode therefore records the pre-increment
index, a failure of the backend itself records the parent chain, and the
size hint is forwarded unchanged. -/
theorem seq_access_next_element_contract {E β : Type}
    (delegate : (Track → Except E β × Track) → Track → Except E (Option β) × Track)
    (seedRun : Chain → Track → Except E β × Track)
    (chain : Chain) (index : Nat) (tr : Track) :
    (SeqAccess.nextElementSeed delegate seedRun chain index tr).2 = index + 1 ∧
    (SeqAccess.nextElementSeed delegate seedRun chain index tr).1
      = mapErrTrigger chain
          (delegate (TrackedSeed.run seedRun (Chain.seq chain index)) tr) ∧
    (∀ e : E,
      (((SeqAccess.nextElementSeed
            (fun (seedFn : Track → Except E β × Track) t =>
              match seedFn t with
              | (.ok d, t2) => ((.ok (Option.some d) : Except E (Option β)), t2)
              | (.error err, t2) => (.error err, t2))
            (fun _ t => (.error e, t)) chain index Track.new).1).2).path
        = Option.some (Path.fromChain (Chain.seq chain index))) ∧
    (∀ e : E,
      ((SeqAccess.nextElementSeed (fun _ t => ((.error e : Except E (Option β)), t))
          seedRun chain index Track.new).1)
        = (.error e, Track.mk (Option.some (Path.fromChain chain)))) ∧
    (∀ hint : Option Nat, SeqAccess.sizeHint hint = hint) := by
  refine ⟨rfl, rfl, ?_, ?_, fun _ => rfl⟩
  · intro e
    simp [SeqAccess.nextElementSeed, TrackedSeed.run, mapErrTrigger,
      Track.trigger, Track.triggerImpl, Track.new]
  · intro e
    simp [SeqAccess.nextElementSeed, TrackedSeed.run, mapErrTrigger,
      Track.trigger, Track.triggerImpl, Track.new]

/-- C7: `MapAccess` key/value iteration. A successful key decode forwards
the result and the (possibly `CaptureKey`-written) slot with the track
untouched; a failing key decode triggers with a `Map` node when a key
text was captured and a `NonStringKey` node otherwise, clearing the slot.
A value decode always consumes the captured key (the slot comes back
empty), builds the same chain variant the key path would, hands the seed
a `TrackedSeed` carrying it, and on failure falls back to triggering with
the un-extended parent chain; a value under a non-string key is tracked
under a `NonStringKey` node (an Unknown segment); the size hint is
forwarded unchanged. -/
theorem map_access_contract {E β : Type} :
    (∀ (F : Option String → Except E (Option β) × Option String) chain slot tr r slot2,
        F slot = (.ok r, slot2) →
        MapAccess.nextKeySeed F chain slot tr = (.ok r, slot2, tr)) ∧
    (∀ (F : Option String → Except E (Option β) × Option String) chain slot tr e k,
        F slot = (.error e, Option.some k) →
        MapAccess.nextKeySeed F chain slot tr
          = (.error e, none, tr.triggerImpl (Chain.map chain k))) ∧
    (∀ (F : Option String → Except E (Option β) × Option String) chain slot tr e,
        F slot = (.error e, none) →
        MapAccess.nextKeySeed F chain slot tr
          = (.error e, none, tr.triggerImpl (Chain.nonStringKey chain))) ∧
    (∀ (delegate : (Track → Except E β × Track) → Track → Except E β × Track)
        seedRun chain slot tr,
        (MapAccess.nextValueSeed delegate seedRun chain slot tr).2.1 = none) ∧
    (∀ (delegate : (Track → Except E β × Track) → Track → Except E β × Track)
        seedRun chain k tr,
        MapAccess.nextValueSeed delegate seedRun chain (Option.some k) tr
          = (match delegate (TrackedSeed.run seedRun (Chain.map chain k)) tr with
             | (.ok v, tr2) => ((.ok v : Except E β), none, tr2)
             | (.error e, tr2) => (.error e, none, tr2.triggerImpl chain))) ∧
    (∀ (delegate : (Track → Except E β × Track) → Track → Except E β × Track)
        seedRun chain tr,
        MapAccess.nextValueSeed delegate seedRun chain none tr
          = (match delegate (TrackedSeed.run seedRun (Chain.nonStringKey chain)) tr with
             | (.ok v, tr2) => ((.ok v : Except E β), none, tr2)
             | (.error e, tr2) => (.error e, none, tr2.triggerImpl chain))) ∧
    (∀ (e : E) (chain : Chain) (k : String),
        ((MapAccess.nextValueSeed (fun seedFn t => seedFn t)
            (fun _ t => ((.error e : Except E β), t))
            chain (Option.some k) Track.new).2.2).path
          = Option.some (Path.fromChain (Chain.map chain k))) ∧
    (∀ (e : E) (chain : Chain),
        ((MapAccess.nextValueSeed (fun seedFn t => seedFn t)
            (fun _ t => ((.error e : Except E β), t)) chain none Track.new).2.2).path
          = Option.some (Path.fromChain (Chain.nonStringKey chain))) ∧
    (∀ (e : E) (seedRun : Chain → Track → Except E β × Track) (chain : Chain)
        (slot : Option String) (tr : Track),
        MapAccess.nextValueSeed (fun _ t => ((.error e : Except E β), t)) seedRun
            chain slot tr
          = (.error e, none, tr.triggerImpl chain)) ∧
    (∀ hint : Option Nat, MapAccess.sizeHint hint = hint) := by
  refine ⟨?_, ?_, ?_, ?_, ?_, ?_, ?_, ?_, ?_, fun _ => rfl⟩
  · intro F chain slot tr r slot2 hF
    simp [MapAccess.nextKeySeed, hF]
  · intro F chain slot tr e k hF
    simp [MapAccess.nextKeySeed, hF, Track.trigger]
  · intro F chain slot tr e hF
    simp [MapAccess.nextKeySeed, hF, Track.trigger]
  · intro delegate seedRun chain slot tr
    simp only [MapAccess.nextValueSeed]
    cases delegate (TrackedSeed.run seedRun
        (match slot with
         | Option.some k => Chain.map chain k
         | none => Chain.nonStringKey chain)) tr with
    | mk r tr2 => cases r <;> simp [Track.trigger]
  · intro delegate seedRun chain k tr
    simp only [MapAccess.nextValueSeed]
    cases delegate (TrackedSeed.run seedRun (Chain.map chain k)) tr with
    | mk r tr2 => cases r <;> simp [Track.trigger]
  · intro delegate seedRun chain tr
    simp only [MapAccess.nextValueSeed]
    cases delegate (TrackedSeed.run seedRun (Chain.nonStringKey chain)) tr with
    | mk r tr2 => cases r <;> simp [Track.trigger]
  · intro e chain k
    simp [MapAccess.nextValueSeed, TrackedSeed.run, mapErrTrigger,
      Track.trigger, Track.triggerImpl, Track.new]
  · intro e chain
    simp [MapAccess.nextValueSeed, TrackedSeed.run, mapErrTrigger,
      Track.trigger, Track.triggerImpl, Track.new]
  · intro e seedRun chain slot tr
    simp [MapAccess.nextValueSeed, Track.trigger]

/-- Witness for C7 at concrete inputs: a failing key decode with a
captured key triggers the Map node, one with no captured key triggers the
NonStringKey node, and a successful key decode leaves the track alone. -/
theorem map_access_contract_witness :
    MapAccess.nextKeySeed (E := Nat) (β := String)
        (fun _ => (.error 7, Option.some ("k"))) Chain.root none Track.new
      = (.error 7, none, Track.new.triggerImpl (Chain.map Chain.root ("k"))) ∧
    MapAccess.nextKeySeed (E := Nat) (β := String)
        (fun _ => (.error 7, none)) Chain.root none Track.new
      = (.error 7, none, Track.new.triggerImpl (Chain.nonStringKey Chain.root)) ∧
    MapAccess.nextKeySeed (E := Nat) (β := String)
        (fun _ => (.ok (Option.some ("f")), Option.some ("f"))) Chain.root none Track.new
      = (.ok (Option.some ("f")), Option.some ("f"), Track.new) := by
  refine ⟨?_, ?_, ?_⟩
  · exact (map_access_contract (E := Nat) (β := String)).2.1
      (fun _ => (.error 7, Option.some ("k"))) Chain.root none Track.new 7 ("k") rfl
  · exact (map_access_contract (E := Nat) (β := String)).2.2.1
      (fun _ => (.error 7, none)) Chain.root none Track.new 7 rfl
  · exact (map_access_contract (E := Nat) (β := String)).1
      (fun _ => (.ok (Option.some ("f")), Option.some ("f"))) Chain.root none Track.new
      (Option.some ("f")) (Option.some ("f")) rfl

/-- C8: the `CaptureKey` decorator forwards every visit callback to its
delegate with the result unchanged; exactly the three string-producing
callbacks (`visit_str`, `visit_borrowed_str`, `visit_string`)
additionally write a copy of the decoded text into the output slot, every
other callback leaves the slot untouched; and every decode-kind request
forwards to the delegate's method over the `CaptureKey`-wrapped visitor
with the result unchanged. -/
theorem capture_key_contract {α E F D S M N : Type} (d : Visitor α E F D S M N) :
    (∀ v slot, (CaptureKey.visitor d).visitBool v slot = (d.visitBool v, slot)) ∧
    (∀ v slot, (CaptureKey.visitor d).visitI8 v slot = (d.visitI8 v, slot)) ∧
    (∀ v slot, (CaptureKey.visitor d).visitI16 v slot = (d.visitI16 v, slot)) ∧
    (∀ v slot, (CaptureKey.visitor d).visitI32 v slot = (d.visitI32 v, slot)) ∧
    (∀ v slot, (CaptureKey.visitor d).visitI64 v slot = (d.visitI64 v, slot)) ∧
    (∀ v slot, (CaptureKey.visitor d).visitU8 v slot = (d.visitU8 v, slot)) ∧
    (∀ v slot, (CaptureKey.visitor d).visitU16 v slot = (d.visitU16 v, slot)) ∧
    (∀ v slot, (CaptureKey.visitor d).visitU32 v slot = (d.visitU32 v, slot)) ∧
    (∀ v slot, (CaptureKey.visitor d).visitU64 v slot = (d.visitU64 v, slot)) ∧
    (∀ v slot, (CaptureKey.visitor d).visitF32 v slot = (d.visitF32 v, slot)) ∧
    (∀ v slot, (CaptureKey.visitor d).visitF64 v slot = (d.visitF64 v, slot)) ∧
    (∀ v slot, (CaptureKey.visitor d).visitChar v slot = (d.visitChar v, slot)) ∧
    (∀ v slot, (CaptureKey.visitor d).visitStr v slot
        = (d.visitStr v, Option.some v)) ∧
    (∀ v slot, (CaptureKey.visitor d).visitBorrowedStr v slot
        = (d.visitBorrowedStr v, Option.some v)) ∧
    (∀ v slot, (CaptureKey.visitor d).visitString v slot
        = (d.visitString v, Option.some v)) ∧
    (∀ slot, (CaptureKey.visitor d).visitUnit slot = (d.visitUnit, slot)) ∧
    (∀ slot, (CaptureKey.visitor d).visitNone slot = (d.visitNone, slot)) ∧
    (∀ de slot, (CaptureKey.visitor d).visitSome de slot = (d.visitSome de, slot)) ∧
    (∀ de slot, (CaptureKey.visitor d).visitNewtypeStruct de slot
        = (d.visitNewtypeStruct de, slot)) ∧
    (∀ a slot, (CaptureKey.visitor d).visitSeq a slot = (d.visitSeq a, slot)) ∧
    (∀ a slot, (CaptureKey.visitor d).visitMap a slot = (d.visitMap a, slot)) ∧
    (∀ a slot, (CaptureKey.visitor d).visitEnum a slot = (d.visitEnum a, slot)) ∧
    (∀ v slot, (CaptureKey.visitor d).visitBytes v slot = (d.visitBytes v, slot)) ∧
    (∀ v slot, (CaptureKey.visitor d).visitBorrowedBytes v slot
        = (d.visitBorrowedBytes v, slot)) ∧
    (∀ v slot, (CaptureKey.visitor d).visitByteBuf v slot = (d.visitByteBuf v, slot)) ∧
    (∀ (delegateMethod :
          SlotVisitor α E F D S M N → Option String → Except E α × Option String)
        (visitor : Visitor α E F D S M N) (slot : Option String),
        CaptureKey.deserializeKind delegateMethod visitor slot
          = delegateMethod (CaptureKey.visitor visitor) slot) := by
  exact ⟨fun _ _ => rfl, fun _ _ => rfl, fun _ _ => rfl, fun _ _ => rfl, fun _ _ => rfl,
    fun _ _ => rfl, fun _ _ => rfl, fun _ _ => rfl, fun _ _ => rfl, fun _ _ => rfl,
    fun _ _ => rfl, fun _ _ => rfl, fun _ _ => rfl, fun _ _ => rfl, fun _ _ => rfl,
    fun _ => rfl, fun _ => rfl, fun _ _ => rfl, fun _ _ => rfl, fun _ _ => rfl,
    fun _ _ => rfl, fun _ _ => rfl, fun _ _ => rfl, fun _ _ => rfl, fun _ _ => rfl,
    fun _ _ _ => rfl⟩

/-- C9: the `Struct` chain node required by `Path::from_chain` in
src/path.rs is a constructor of its own, distinct from the `Map` node,
and contributes exactly the map-key segment carrying the field name, so
its path is the one a `Map` node with the same key would produce. (The
`Chain` declaration at src/lib.rs lines 214-241 omits this variant even
though src/path.rs line 113 matches on it; see the comment on `Chain`.) -/
theorem struct_variant_same_path_as_map :
    (∀ p k, Path.fromChain (Chain.struct p k) = Path.fromChain (Chain.map p k)) ∧
    (∀ p k, Chain.struct p k ≠ Chain.map p k) := by
  constructor <;> intro p k <;> simp [Path.fromChain, Path.fromChainLoop]

/-- C10: displaying an `Error` renders the Path's text, a colon and a
space, then the original error's own display output; with an empty Path
the message begins with the no-location marker and the original message
follows verbatim. -/
theorem error_display_layout {E : Type} (dispE : E → String) (p : Path) (e : E) :
    Error.display dispE (Error.mk p e) = Path.render p ++ (": ") ++ dispE e ∧
    Error.display dispE (Error.mk Path.empty e) = (".") ++ (": ") ++ dispE e := by
  exact ⟨rfl, rfl⟩

end PathToError
